import Mathlib

/-!
A verification development for the coordination core of a multi-agent
code-generation fleet: a polling repository watcher (`watcher.js`), a
single-active-session manager (`session.js`), the session-creation endpoint's
worker-count clamping (`server.js`), and the per-worker sync/execute loop
(`agent-loop.sh` / docker agent script).

Source functions are embedded shallowly: JS strings become `String`, JS
regex searches over `agent-(\d+)-(\d+)` and `agent-(\d+)` become explicit
leftmost-match scanners over `List Char`, object maps keyed by string ids
become insertion-ordered association lists, and one reconciliation tick of
`RepoWatcher.poll` becomes a pure function from the observed repository /
ledger contents to the next watcher state plus the optional `newCommit`
event.
-/

namespace Tokamak

/-- Value of a digit list, most significant first (`parseInt` on a digit string). -/
def natOfDigits (ds : List Char) : Nat :=
  ds.foldl (fun n c => 10 * n + (c.toNat - '0'.toNat)) 0

/-- Strip the literal `p` from the front of `cs`; `none` when `cs` does not
start with `p`. -/
def stripLit : List Char → List Char → Option (List Char)
  | [], cs => some cs
  | _ :: _, [] => none
  | p :: ps, c :: cs => if c = p then stripLit ps cs else none

/-- JS `String.prototype.includes`: does `needle` occur contiguously in the list? -/
def hasSubstr (needle : List Char) : List Char → Bool
  | [] => (stripLit needle []).isSome
  | c :: cs => (stripLit needle (c :: cs)).isSome || hasSubstr needle cs

/-- Match the JS regex `agent-(\d+)-(\d+)` anchored at the start of `cs`,
returning the two capture groups (id digits, epoch-millis digits).  The `\d+`
groups are maximal runs of digits; since the character after the first group
must be `-` (not a digit), greedy matching needs no backtracking. -/
def agentTaskMatchAt (cs : List Char) : Option (List Char × List Char) :=
  match stripLit "agent-".toList cs with
  | none => none
  | some rest =>
    let ds1 := rest.takeWhile Char.isDigit
    if ds1.isEmpty then none
    else
      match rest.drop ds1.length with
      | '-' :: rest2 =>
        let ds2 := rest2.takeWhile Char.isDigit
        if ds2.isEmpty then none else some (ds1, ds2)
      | _ => none

/-- Leftmost match of `agent-(\d+)-(\d+)` (JS `String.prototype.match` semantics:
scan start positions left to right). -/
def agentTaskMatch : List Char → Option (List Char × List Char)
  | [] => none
  | c :: cs =>
    match agentTaskMatchAt (c :: cs) with
    | some r => some r
    | none => agentTaskMatch cs

/-- Match the JS regex `agent-(\d+)` anchored at the start of `cs`
(commit-author attribution), returning the digit capture group. -/
def agentAuthorMatchAt (cs : List Char) : Option (List Char) :=
  match stripLit "agent-".toList cs with
  | none => none
  | some rest =>
    let ds := rest.takeWhile Char.isDigit
    if ds.isEmpty then none else some ds

/-- Leftmost match of `agent-(\d+)` in a commit author string. -/
def agentAuthorMatch : List Char → Option (List Char)
  | [] => none
  | c :: cs =>
    match agentAuthorMatchAt (c :: cs) with
    | some r => some r
    | none => agentAuthorMatch cs

/-- One parsed line of `git log --format="%H|%an|%s|%cr"`. -/
structure Commit where
  hash : String
  author : String
  message : String
  timeAgo : String
deriving Repr, DecidableEq

/-- A ledger entry derived from a file under `current_tasks/`
(`RepoWatcher.updateCurrentTasks`). -/
structure TaskRecord where
  file : String
  agentId : String
  timestamp : Nat
  description : String
deriving Repr, DecidableEq

/-- Derived per-worker view (`this.state.agents[id]`). -/
structure AgentStatus where
  id : String
  status : String
  currentTask : Option String
  commitCount : Nat
  taskCount : Nat
deriving Repr, DecidableEq

/-- `RepoWatcher.updateCurrentTasks` body for one file: try the regex
`agent-(\d+)-(\d+)` against the file name; on a match use the captured id and
`parseInt` of the captured millis, otherwise degrade to `"unknown"` / `0`.
The description is the trimmed file content. -/
def parseTaskFileL (name : List Char) (content : String) : TaskRecord :=
  match agentTaskMatch name with
  | some (ds1, ds2) =>
    { file := String.mk name, agentId := String.mk ds1,
      timestamp := natOfDigits ds2, description := content.trim }
  | none =>
    { file := String.mk name, agentId := "unknown",
      timestamp := 0, description := content.trim }

/-- String-level wrapper of `parseTaskFileL`. -/
def parseTaskFile (name content : String) : TaskRecord :=
  parseTaskFileL name.toList content

/-- Lookup in an insertion-ordered association list (JS object / `Map` read). -/
def lookupKey {α : Type} : List (String × α) → String → Option α
  | [], _ => none
  | (k, v) :: rest, key => if k = key then some v else lookupKey rest key

/-- Write to an insertion-ordered association list (JS object / `Map` write):
an existing key is updated in place, a new key is appended at the end. -/
def setKey {α : Type} : List (String × α) → String → α → List (String × α)
  | [], key, v => [(key, v)]
  | (k, w) :: rest, key, v =>
    if k = key then (k, v) :: rest else (k, w) :: setKey rest key v

/-- The watcher's derived agents map, keyed by the worker-id string. -/
abbrev AgentMap := List (String × AgentStatus)

/-- First `forEach` of `RepoWatcher.updateAgentStatus`, for one task record:
create the entry as `working` with the record's description, or overwrite
`status` / `currentTask` on an existing entry. -/
def applyTask (m : AgentMap) (t : TaskRecord) : AgentMap :=
  match lookupKey m t.agentId with
  | none =>
    setKey m t.agentId
      { id := t.agentId, status := "working", currentTask := some t.description,
        commitCount := 0, taskCount := 0 }
  | some a =>
    setKey m t.agentId { a with status := "working", currentTask := some t.description }

/-- Fold `applyTask` over the current task records, in directory order. -/
def applyTasks (m : AgentMap) : List TaskRecord → AgentMap
  | [] => m
  | t :: ts => applyTasks (applyTask m t) ts

/-- The `activeAgents` set accumulated during the first `forEach`. -/
def activeIds (tasks : List TaskRecord) : List String :=
  tasks.map TaskRecord.agentId

/-- The completion marker token looked for in commit messages. -/
def completionMarker : String := "작업 완료"

/-- Second `forEach` of `RepoWatcher.updateAgentStatus`, for one commit of the
bounded window: attribute it via `agent-(\d+)` in the author, creating a
zero-count entry when absent, then increment `commitCount` and — when the
message contains the completion marker — `taskCount`. -/
def applyCommit (active : List String) (m : AgentMap) (c : Commit) : AgentMap :=
  match agentAuthorMatch c.author.toList with
  | none => m
  | some ds =>
    let id := String.mk ds
    let a :=
      match lookupKey m id with
      | some a => a
      | none =>
        { id := id, status := if active.contains id then "working" else "idle",
          currentTask := none, commitCount := 0, taskCount := 0 }
    let a := { a with commitCount := a.commitCount + 1 }
    let a :=
      if hasSubstr completionMarker.toList c.message.toList then
        { a with taskCount := a.taskCount + 1 }
      else a
    setKey m id a

/-- Fold `applyCommit` over the commit window, newest first. -/
def applyCommits (active : List String) (m : AgentMap) : List Commit → AgentMap
  | [] => m
  | c :: cs => applyCommits active (applyCommit active m c) cs

/-- Adjustment applied by the final `forEach`: an id without a current task is
marked `idle` with `currentTask` cleared; an active id is left alone. -/
def idleAdjust (active : List String) (k : String) (a : AgentStatus) : AgentStatus :=
  if active.contains k then a else { a with status := "idle", currentTask := none }

/-- Final `forEach` of `RepoWatcher.updateAgentStatus` over all map entries. -/
def markIdle (active : List String) (m : AgentMap) : AgentMap :=
  m.map fun p => (p.1, idleAdjust active p.1 p.2)

/-- `RepoWatcher.updateAgentStatus`: tasks pass, then commit-counter pass, then
the idle-marking pass; the active set is the ids of all current task records. -/
def updateAgentStatus (m : AgentMap) (tasks : List TaskRecord) (commits : List Commit) :
    AgentMap :=
  let active := activeIds tasks
  markIdle active (applyCommits active (applyTasks m tasks) commits)

/-- One entry of the module checklist parsed from `SPEC.md`. -/
structure SpecModule where
  name : String
  status : String
deriving Repr, DecidableEq

/-- `this.state` of `RepoWatcher`: the snapshot re-emitted on every tick. -/
structure WatcherState where
  agents : AgentMap
  commits : List Commit
  currentTasks : List TaskRecord
  completedTaskCount : Nat
  testResults : Option String
  totalLines : Nat
  totalCommits : Nat
  specModules : List SpecModule
deriving Repr, DecidableEq

/-- The initial (and post-`reset`) snapshot. -/
def initialState : WatcherState :=
  { agents := [], commits := [], currentTasks := [], completedTaskCount := 0,
    testResults := none, totalLines := 0, totalCommits := 0, specModules := [] }

/-- The mutable fields of a `RepoWatcher` relevant to reconciliation. -/
structure Watcher where
  lastCommitHash : Option String
  state : WatcherState
deriving Repr, DecidableEq

/-- A freshly constructed `RepoWatcher`. -/
def initialWatcher : Watcher :=
  { lastCommitHash := none, state := initialState }

/-- `RepoWatcher.reset`: clear `lastCommitHash` and the whole derived state. -/
def reset (_w : Watcher) : Watcher := initialWatcher

/-- What one tick observes from the repository and the ledger.  `history` is
the full commit history newest first (`git log` order); `taskFiles` and
`completedFiles` are the directory listings as (name, content) pairs and
names, with `none` standing for a failed `readdirSync` (caught in JS). -/
structure TickInput where
  history : List Commit
  revCount : Nat
  taskFiles : Option (List (String × String))
  completedFiles : Option (List String)
  totalLines : Nat
  specModules : List SpecModule
deriving Repr

/-- The bounded window size of `git log ... -30`. -/
def COMMIT_WINDOW : Nat := 30

/-- `RepoWatcher.updateCommits`: read the bounded window; an empty log is an
early return that changes nothing and emits nothing.  Otherwise detect a head
hash change against `lastCommitHash` (a falsy — empty — hash never fires) and
emit the single newest commit; store the window and the `rev-list` count. -/
def updateCommits (inp : TickInput) (w : Watcher) : Watcher × Option Commit :=
  match inp.history.take COMMIT_WINDOW with
  | [] => (w, none)
  | c :: rest =>
    let commits := c :: rest
    if c.hash ≠ "" ∧ w.lastCommitHash ≠ some c.hash then
      ({ lastCommitHash := some c.hash,
         state := { w.state with commits := commits, totalCommits := inp.revCount } },
       some c)
    else
      ({ w with state := { w.state with commits := commits, totalCommits := inp.revCount } },
       none)

/-- `RepoWatcher.updateCurrentTasks`: list `current_tasks/`, drop `.gitkeep`,
parse each file; a failed listing degrades to the empty list. -/
def readCurrentTasks (inp : TickInput) : List TaskRecord :=
  match inp.taskFiles with
  | none => []
  | some fs => (fs.filter fun p => p.1 ≠ ".gitkeep").map fun p => parseTaskFile p.1 p.2

/-- `RepoWatcher.updateCompletedTasks`: count of `completed_tasks/` entries
excluding `.gitkeep`; a failed listing degrades to `0`. -/
def readCompletedCount (inp : TickInput) : Nat :=
  match inp.completedFiles with
  | none => 0
  | some fs => (fs.filter fun f => f ≠ ".gitkeep").length

/-- One reconciliation tick of `RepoWatcher.poll`, after the best-effort
`pull --rebase`: run the updaters in source order and return the new watcher
plus the optional `newCommit` event.  `updateAgentStatus` reads the commit
window just stored by `updateCommits` (the stale previous window when the log
read came back empty) and the task records just stored. -/
def poll (inp : TickInput) (w : Watcher) : Watcher × Option Commit :=
  let p := updateCommits inp w
  let w1 := p.1
  let tasks := readCurrentTasks inp
  let agents := updateAgentStatus w1.state.agents tasks w1.state.commits
  ({ w1 with
      state := { w1.state with
        agents := agents,
        currentTasks := tasks,
        completedTaskCount := readCompletedCount inp,
        totalLines := inp.totalLines,
        specModules := inp.specModules } },
   p.2)

/-- `RepoWatcher.getState`: the emitted snapshot is (a shallow copy of) the
state. -/
def getState (w : Watcher) : WatcherState := w.state

/-- One entry of a session's log ring buffer. -/
structure LogEntry where
  time : Nat
  message : String
deriving Repr, DecidableEq

/-- `Session.addLog` on the logs list: push the entry, then if the length
exceeds 500 shift the oldest entry off the front. -/
def addLog (logs : List LogEntry) (e : LogEntry) : List LogEntry :=
  let l := logs ++ [e]
  if 500 < l.length then l.drop 1 else l

/-- The `STATUS` constants of `session.js`. -/
def STATUS_INITIALIZING : String := "initializing"

/-- Terminal session status. -/
def STATUS_STOPPED : String := "stopped"

/-- The fields of a `Session` object the manager-level claims are about. -/
structure Session where
  id : String
  gameName : String
  agentCount : Int
  status : String
  repoPath : Option String
  workDir : Option String
  logs : List LogEntry
  forgeStep : Nat
  createdAt : Nat
deriving Repr, DecidableEq

/-- The `Session` constructor (`new Session(gameName, agentCount)`); the random
hex id and `Date.now()` are passed in explicitly. -/
def newSession (id gameName : String) (agentCount : Int) (now : Nat) : Session :=
  { id := id, gameName := gameName, agentCount := agentCount,
    status := STATUS_INITIALIZING, repoPath := none, workDir := none,
    logs := [], forgeStep := 0, createdAt := now }

/-- `SessionManager`: the session map plus the single active-session id. -/
structure SessionManager where
  sessions : List (String × Session)
  activeSessionId : Option String
deriving Repr, DecidableEq

/-- `new SessionManager()`. -/
def initialManager : SessionManager :=
  { sessions := [], activeSessionId := none }

/-- The guard at the top of `SessionManager.create`: the active session, when
it exists and is not stopped. -/
def activeConflict (m : SessionManager) : Option Session :=
  match m.activeSessionId with
  | none => none
  | some i =>
    match lookupKey m.sessions i with
    | none => none
    | some s => if s.status = STATUS_STOPPED then none else some s

/-- `SessionManager.create`: throw a conflict error — before touching any
state — when a non-stopped active session exists; otherwise register a fresh
session and make it active.  The pair is (thrown-or-returned value, the
manager state after the call). -/
def SessionManager.create (m : SessionManager) (gameName : String) (agentCount : Int)
    (newId : String) (now : Nat) : Except String Session × SessionManager :=
  match activeConflict m with
  | some s =>
    (Except.error ("Session already active: " ++ s.gameName ++ " (" ++ s.id ++ ")"), m)
  | none =>
    let s := newSession newId gameName agentCount now
    (Except.ok s,
     { m with sessions := setKey m.sessions newId s, activeSessionId := some newId })

/-- `SessionManager.getActive`: the active session unless missing or stopped. -/
def SessionManager.getActive (m : SessionManager) : Option Session :=
  activeConflict m

/-- A JSON field value as the forge endpoint can receive it: absent, an
integer number, or a string.  (Non-integer numbers are outside the model;
`parseInt` truncates them.) -/
inductive JSValue
  | missing
  | num (n : Int)
  | str (s : String)
deriving Repr, DecidableEq

/-- Maximal digit prefix as a number; `none` when there is no digit (NaN). -/
def digitsPrefix (cs : List Char) : Option Nat :=
  let ds := cs.takeWhile Char.isDigit
  if ds.isEmpty then none else some (natOfDigits ds)

/-- JS `parseInt(s, 10)` on a string: skip leading whitespace, allow one sign,
then read the maximal digit prefix; NaN (`none`) when no digit follows. -/
def parseIntFrom (cs : List Char) : Option Int :=
  let cs := cs.dropWhile fun c => c = ' ' || c = '\t' || c = '\n' || c = '\r'
  match cs with
  | '-' :: rest => (digitsPrefix rest).map fun n => -(n : Int)
  | '+' :: rest => (digitsPrefix rest).map fun n => (n : Int)
  | rest => (digitsPrefix rest).map fun n => (n : Int)

/-- `parseInt(v, 10)` on the destructured field value. -/
def jsParseInt : JSValue → Option Int
  | JSValue.missing => none
  | JSValue.num n => some n
  | JSValue.str s => parseIntFrom s.toList

/-- The worker count the `POST /api/forge` handler actually uses:
`const { agentCount = 3 } = body` then
`Math.min(Math.max(parseInt(agentCount, 10) || 3, 1), 5)`.
Note `||` treats a parsed `0` (and NaN) as falsy, so both fall back to 3. -/
def forgeAgentCount (agentCount : JSValue) : Int :=
  let v := match agentCount with
    | JSValue.missing => JSValue.num 3
    | x => x
  let p : Int := match jsParseInt v with
    | none => 3
    | some n => if n = 0 then 3 else n
  min (max p 1) 5

/-- The per-worker git refs the loop script manipulates: the checked-out local
branch head and the `origin/main` remote-tracking ref, plus whether a rebase
is mid-flight.  Commits are abstract ids. -/
structure AgentGit where
  localHead : Nat
  originMain : Nat
  rebaseInProgress : Bool
deriving Repr, DecidableEq

/-- The environment one iteration of `agent-loop.sh` runs against: whether the
standalone `git fetch` succeeds, whether the `git pull --rebase` integration
succeeds, the remote tip at fetch time, the head the rebase would produce,
and the executor's exit code. -/
structure IterEnv where
  fetchOk : Bool
  rebaseOk : Bool
  remoteTip : Nat
  rebasedHead : Nat
  claudeExitCode : Nat
deriving Repr, DecidableEq

/-- What one loop iteration did: the git state it left behind, how long it
slept, whether it reached the executor step, and whether the process exited. -/
structure IterResult where
  git : AgentGit
  sleptSeconds : Nat
  ranExecutor : Bool
  processExited : Bool
deriving Repr, DecidableEq

/-- One iteration of the `while true` loop of `agent-loop.sh`.
`git fetch origin || true` refreshes `origin/main` when it succeeds.  A
successful `git pull --rebase origin main` (whose own fetch also refreshes
`origin/main`) leaves the rebased head, then the executor is invoked with its
exit status swallowed (`|| true` under `pipefail`) and the loop sleeps 5.  A
failed integration runs the handler block: `git rebase --abort` (guarded),
`git reset --hard origin/main` (guarded) — a conflict presupposes the pull's
fetch completed, so `origin/main` is the remote tip — then `sleep 3` and
`continue`, back to the sync step.  Every failing command is guarded, so no
branch exits the shell. -/
def agentIteration (env : IterEnv) (g : AgentGit) : IterResult :=
  let g := if env.fetchOk then { g with originMain := env.remoteTip } else g
  if env.rebaseOk then
    let g := { g with originMain := env.remoteTip, localHead := env.rebasedHead,
                      rebaseInProgress := false }
    { git := g, sleptSeconds := 5, ranExecutor := true, processExited := false }
  else
    let g := { g with originMain := env.remoteTip }
    let g := { g with rebaseInProgress := false }
    let g := { g with localHead := g.originMain }
    { git := g, sleptSeconds := 3, ranExecutor := false, processExited := false }

/-- The most recent task record referencing worker `k` (the one whose
`currentTask` survives the first `forEach`). -/
def lastTaskFor (k : String) : List TaskRecord → Option TaskRecord
  | [] => none
  | t :: ts =>
    match lastTaskFor k ts with
    | some r => some r
    | none => if t.agentId = k then some t else none

/-- Fixture: a single commit authored by worker 1 whose message carries the
completion marker. -/
def tickCommit : Commit :=
  { hash := "aaa111", author := "agent-1", message := "feat: scoring 작업 완료",
    timeAgo := "now" }

/-- Fixture: a tick observing exactly `tickCommit` and empty ledger dirs. -/
def c1Input : TickInput :=
  { history := [tickCommit], revCount := 1, taskFiles := some [],
    completedFiles := some [], totalLines := 0, specModules := [] }

/-- Fixture: a fresh head commit for the new-commit event scenario. -/
def c5Commit : Commit :=
  { hash := "bbb222", author := "agent-2", message := "init", timeAgo := "1m" }

/-- Fixture: a tick observing exactly `c5Commit`. -/
def c5Input : TickInput :=
  { history := [c5Commit], revCount := 1, taskFiles := some [],
    completedFiles := some [], totalLines := 0, specModules := [] }

/-- Fixture: the record derived from `current_tasks/agent-2-1700000000000`. -/
def c6Record : TaskRecord := parseTaskFile "agent-2-1700000000000" "implement scoring"

/-- Fixture: a tick whose ledger holds one task file for worker 2. -/
def c6Input : TickInput :=
  { history := [], revCount := 0,
    taskFiles := some [("agent-2-1700000000000", "implement scoring")],
    completedFiles := some [], totalLines := 0, specModules := [] }

/-- Fixture: a tick observing an empty ledger and no commits. -/
def emptyTickInput : TickInput :=
  { history := [], revCount := 0, taskFiles := some [],
    completedFiles := some [], totalLines := 0, specModules := [] }

/-- Fixture: the watcher after one tick of `c6Input` from a fresh watcher. -/
def c6AfterFirstTick : Watcher := (poll c6Input initialWatcher).1

/-- Fixture: the watcher after one tick of `c1Input` from a fresh watcher
(worker 1 is known from commit history). -/
def c10AfterFirstTick : Watcher := (poll c1Input initialWatcher).1

/-- Fixture: a tick with a commit window plus two real completed-task entries
and a `.gitkeep`. -/
def c7Input : TickInput :=
  { history := [tickCommit], revCount := 1, taskFiles := some [],
    completedFiles := some ["agent-1-5", ".gitkeep", "agent-2-6"],
    totalLines := 12, specModules := [] }

/-- Fixture: a running (non-stopped) session. -/
def c2Running : Session :=
  { id := "abc", gameName := "tetris", agentCount := 3, status := "running",
    repoPath := none, workDir := none, logs := [], forgeStep := 0, createdAt := 0 }

/-- Fixture: a manager whose active session is running. -/
def c2Manager : SessionManager :=
  { sessions := [("abc", c2Running)], activeSessionId := some "abc" }

/-- Fixture: the same session after it stopped. -/
def c2Stopped : Session := { c2Running with status := "stopped" }

/-- Fixture: a manager whose active session has stopped. -/
def c2StoppedManager : SessionManager :=
  { sessions := [("abc", c2Stopped)], activeSessionId := some "abc" }

/-- Fixture: an iteration environment whose integration attempt conflicts. -/
def c4ConflictEnv : IterEnv :=
  { fetchOk := true, rebaseOk := false, remoteTip := 7, rebasedHead := 9,
    claudeExitCode := 1 }

/-- Fixture: a worker git state with an unpushed local commit and a stale
remote-tracking ref. -/
def c4Git : AgentGit :=
  { localHead := 5, originMain := 4, rebaseInProgress := true }

theorem lookupKey_setKey_self {α : Type} (m : List (String × α)) (k : String) (v : α) :
    lookupKey (setKey m k v) k = some v := by
  induction m with
  | nil => simp [setKey, lookupKey]
  | cons p rest ih =>
    obtain ⟨k1, v1⟩ := p
    by_cases h : k1 = k
    · subst h; simp [setKey, lookupKey]
    · simp [setKey, lookupKey, h, ih]

theorem lookupKey_setKey_ne {α : Type} (m : List (String × α)) (k k' : String) (v : α)
    (h : k ≠ k') : lookupKey (setKey m k v) k' = lookupKey m k' := by
  induction m with
  | nil => simp [setKey, lookupKey, h]
  | cons p rest ih =>
    obtain ⟨k1, v1⟩ := p
    by_cases h1 : k1 = k
    · subst h1; simp [setKey, lookupKey, h]
    · simp [setKey, lookupKey, h1, ih]

theorem stripLit_append (p cs : List Char) : stripLit p (p ++ cs) = some cs := by
  induction p with
  | nil => simp [stripLit]
  | cons c ps ih => simp [stripLit, ih]

theorem takeWhile_append_stop (p : Char → Bool) (d1 : List Char) (c : Char) (cs : List Char)
    (hd : ∀ x ∈ d1, p x) (hc : p c = false) :
    (d1 ++ c :: cs).takeWhile p = d1 := by
  induction d1 with
  | nil => simp [List.takeWhile_cons, hc]
  | cons a as ih =>
    rw [List.cons_append, List.takeWhile_cons, if_pos (hd a (List.mem_cons_self a as))]
    rw [ih fun x hx => hd x (List.mem_cons_of_mem a hx)]

theorem takeWhile_all (p : Char → Bool) (l : List Char) (h : ∀ c ∈ l, p c) :
    l.takeWhile p = l := by
  induction l with
  | nil => rfl
  | cons c cs ih =>
    rw [List.takeWhile_cons, if_pos (h c (List.mem_cons_self c cs))]
    rw [ih fun x hx => h x (List.mem_cons_of_mem c hx)]

theorem agentTaskMatchAt_exact (d1 d2 : List Char) (h1 : d1 ≠ []) (h2 : d2 ≠ [])
    (hd1 : ∀ c ∈ d1, c.isDigit) (hd2 : ∀ c ∈ d2, c.isDigit) :
    agentTaskMatchAt ("agent-".toList ++ (d1 ++ '-' :: d2)) = some (d1, d2) := by
  unfold agentTaskMatchAt
  rw [stripLit_append]
  have ht1 : (d1 ++ '-' :: d2).takeWhile Char.isDigit = d1 :=
    takeWhile_append_stop _ d1 '-' d2 hd1 (by decide)
  simp only [ht1, List.isEmpty_iff, h1, if_neg, List.drop_left]
  rw [takeWhile_all _ d2 hd2]
  simp [List.isEmpty_iff, h2]

theorem agentTaskMatch_cons_of_some (c : Char) (cs : List Char)
    (r : List Char × List Char) (h : agentTaskMatchAt (c :: cs) = some r) :
    agentTaskMatch (c :: cs) = some r := by
  rw [agentTaskMatch, h]

theorem agentTaskMatch_exact (d1 d2 : List Char) (h1 : d1 ≠ []) (h2 : d2 ≠ [])
    (hd1 : ∀ c ∈ d1, c.isDigit) (hd2 : ∀ c ∈ d2, c.isDigit) :
    agentTaskMatch ("agent-".toList ++ (d1 ++ '-' :: d2)) = some (d1, d2) := by
  cases e : "agent-".toList ++ (d1 ++ '-' :: d2) with
  | nil => exact absurd e (by simp)
  | cons c cs =>
    rw [agentTaskMatch]
    rw [← e, agentTaskMatchAt_exact d1 d2 h1 h2 hd1 hd2]

theorem lastTaskFor_none_iff (k : String) (ts : List TaskRecord) :
    lastTaskFor k ts = none ↔ ∀ t ∈ ts, t.agentId ≠ k := by
  induction ts with
  | nil => simp [lastTaskFor]
  | cons t ts ih =>
    rw [lastTaskFor]
    cases h : lastTaskFor k ts with
    | some r =>
      simp only []
      constructor
      · intro hc; exact absurd hc (by simp)
      · intro hall
        have : lastTaskFor k ts = none :=
          ih.mpr fun x hx => hall x (List.mem_cons_of_mem t hx)
        rw [h] at this; exact absurd this (by simp)
    | none =>
      simp only []
      by_cases e : t.agentId = k
      · simp only [if_pos e]
        constructor
        · intro hc; exact absurd hc (by simp)
        · intro hall; exact absurd e (hall t (List.mem_cons_self t ts))
      · simp only [if_neg e]
        constructor
        · intro _ x hx
          rcases List.mem_cons.mp hx with rfl | hx2
          · exact e
          · exact (ih.mp h) x hx2
        · intro _; trivial

theorem lastTaskFor_mem (k : String) (ts : List TaskRecord) (r : TaskRecord)
    (h : lastTaskFor k ts = some r) : r ∈ ts ∧ r.agentId = k := by
  induction ts with
  | nil => cases h
  | cons t ts ih =>
    rw [lastTaskFor] at h
    cases hl : lastTaskFor k ts with
    | some r2 =>
      rw [hl] at h
      obtain rfl : r2 = r := Option.some.inj h
      obtain ⟨hm, ha⟩ := ih hl
      exact ⟨List.mem_cons_of_mem t hm, ha⟩
    | none =>
      rw [hl] at h
      by_cases e : t.agentId = k
      · rw [if_pos e] at h
        obtain rfl : t = r := Option.some.inj h
        exact ⟨List.mem_cons_self t ts, e⟩
      · rw [if_neg e] at h; cases h

theorem contains_activeIds_iff (k : String) (ts : List TaskRecord) :
    (activeIds ts).contains k = true ↔ ∃ t ∈ ts, t.agentId = k := by
  simp [activeIds, List.contains, List.elem_iff, List.mem_map]

theorem applyTask_lookup_self (m : AgentMap) (t : TaskRecord) :
    ∃ a, lookupKey (applyTask m t) t.agentId = some a ∧
      a.status = "working" ∧ a.currentTask = some t.description := by
  unfold applyTask
  cases h : lookupKey m t.agentId with
  | none => exact ⟨_, lookupKey_setKey_self m t.agentId _, rfl, rfl⟩
  | some a => exact ⟨_, lookupKey_setKey_self m t.agentId _, rfl, rfl⟩

theorem applyTask_lookup_ne (m : AgentMap) (t : TaskRecord) (k : String)
    (h : t.agentId ≠ k) : lookupKey (applyTask m t) k = lookupKey m k := by
  unfold applyTask
  cases lookupKey m t.agentId <;> exact lookupKey_setKey_ne _ _ _ _ h

theorem applyTask_isSome (m : AgentMap) (t : TaskRecord) (k : String)
    (h : (lookupKey m k).isSome) : (lookupKey (applyTask m t) k).isSome := by
  by_cases e : t.agentId = k
  · subst e
    obtain ⟨a, ha, _, _⟩ := applyTask_lookup_self m t
    simp [ha]
  · rw [applyTask_lookup_ne m t k e]; exact h

theorem applyTasks_lookup_notin (m : AgentMap) (ts : List TaskRecord) (k : String)
    (h : ∀ t ∈ ts, t.agentId ≠ k) :
    lookupKey (applyTasks m ts) k = lookupKey m k := by
  induction ts generalizing m with
  | nil => rfl
  | cons t ts ih =>
    rw [applyTasks]
    rw [ih (applyTask m t) fun x hx => h x (List.mem_cons_of_mem t hx)]
    exact applyTask_lookup_ne m t k (h t (List.mem_cons_self t ts))

theorem applyTasks_isSome (m : AgentMap) (ts : List TaskRecord) (k : String)
    (h : (lookupKey m k).isSome) : (lookupKey (applyTasks m ts) k).isSome := by
  induction ts generalizing m with
  | nil => exact h
  | cons t ts ih => exact ih (applyTask m t) (applyTask_isSome m t k h)

theorem applyTasks_last (m : AgentMap) (ts : List TaskRecord) (k : String) (r : TaskRecord)
    (h : lastTaskFor k ts = some r) :
    ∃ a, lookupKey (applyTasks m ts) k = some a ∧
      a.status = "working" ∧ a.currentTask = some r.description := by
  induction ts generalizing m with
  | nil => cases h
  | cons t ts ih =>
    rw [applyTasks]
    rw [lastTaskFor] at h
    cases hl : lastTaskFor k ts with
    | some r2 =>
      rw [hl] at h
      obtain rfl : r2 = r := Option.some.inj h
      exact ih (applyTask m t) hl
    | none =>
      rw [hl] at h
      by_cases e : t.agentId = k
      · rw [if_pos e] at h
        obtain rfl : t = r := Option.some.inj h
        rw [applyTasks_lookup_notin (applyTask m t) ts k ((lastTaskFor_none_iff k ts).mp hl)]
        rw [← e]
        exact applyTask_lookup_self m t
      · rw [if_neg e] at h; cases h

theorem applyCommit_preserves (act : List String) (m : AgentMap) (c : Commit) (k : String)
    (a : AgentStatus) (h : lookupKey m k = some a) :
    ∃ a', lookupKey (applyCommit act m c) k = some a' ∧
      a'.status = a.status ∧ a'.currentTask = a.currentTask := by
  cases hm : agentAuthorMatch c.author.toList with
  | none =>
    refine ⟨a, ?_, rfl, rfl⟩
    unfold applyCommit
    rw [hm]
    exact h
  | some ds =>
    by_cases e : String.mk ds = k
    · subst e
      unfold applyCommit
      rw [hm]
      dsimp only
      rw [h]
      dsimp only
      by_cases hmk : hasSubstr completionMarker.toList c.message.toList
      · rw [if_pos hmk]
        exact ⟨_, lookupKey_setKey_self m _ _, rfl, rfl⟩
      · rw [if_neg hmk]
        exact ⟨_, lookupKey_setKey_self m _ _, rfl, rfl⟩
    · refine ⟨a, ?_, rfl, rfl⟩
      unfold applyCommit
      rw [hm]
      dsimp only
      rw [lookupKey_setKey_ne _ _ _ _ e]
      exact h

theorem applyCommits_preserves (act : List String) (m : AgentMap) (cs : List Commit)
    (k : String) (a : AgentStatus) (h : lookupKey m k = some a) :
    ∃ a', lookupKey (applyCommits act m cs) k = some a' ∧
      a'.status = a.status ∧ a'.currentTask = a.currentTask := by
  induction cs generalizing m a with
  | nil => exact ⟨a, h, rfl, rfl⟩
  | cons c cs ih =>
    obtain ⟨a1, ha1, hs1, hc1⟩ := applyCommit_preserves act m c k a h
    obtain ⟨a2, ha2, hs2, hc2⟩ := ih (applyCommit act m c) a1 ha1
    exact ⟨a2, ha2, hs2.trans hs1, hc2.trans hc1⟩

theorem lookupKey_markIdle (act : List String) (m : AgentMap) (k : String) :
    lookupKey (markIdle act m) k = (lookupKey m k).map (idleAdjust act k) := by
  induction m with
  | nil => rfl
  | cons p rest ih =>
    obtain ⟨k1, v1⟩ := p
    by_cases e : k1 = k
    · subst e; simp [markIdle, lookupKey]
    · simp only [markIdle, List.map_cons] at ih ⊢
      simp [lookupKey, e, ih]

theorem updateAgentStatus_working (m : AgentMap) (tasks : List TaskRecord)
    (commits : List Commit) (k : String) (r : TaskRecord)
    (h : lastTaskFor k tasks = some r) :
    ∃ a, lookupKey (updateAgentStatus m tasks commits) k = some a ∧
      a.status = "working" ∧ a.currentTask = some r.description := by
  unfold updateAgentStatus
  obtain ⟨a1, ha1, hs1, hc1⟩ := applyTasks_last m tasks k r h
  obtain ⟨a2, ha2, hs2, hc2⟩ :=
    applyCommits_preserves (activeIds tasks) (applyTasks m tasks) commits k a1 ha1
  have hact : (activeIds tasks).contains k = true := by
    rw [contains_activeIds_iff]
    obtain ⟨hmem, hid⟩ := lastTaskFor_mem k tasks r h
    exact ⟨r, hmem, hid⟩
  rw [lookupKey_markIdle, ha2]
  refine ⟨idleAdjust (activeIds tasks) k a2, rfl, ?_, ?_⟩
  · rw [idleAdjust, if_pos hact, hs2, hs1]
  · rw [idleAdjust, if_pos hact, hc2, hc1]

theorem updateAgentStatus_idle (m : AgentMap) (tasks : List TaskRecord)
    (commits : List Commit) (k : String)
    (hnone : lastTaskFor k tasks = none) (hin : (lookupKey m k).isSome) :
    ∃ a, lookupKey (updateAgentStatus m tasks commits) k = some a ∧
      a.status = "idle" ∧ a.currentTask = none := by
  unfold updateAgentStatus
  have hne := (lastTaskFor_none_iff k tasks).mp hnone
  obtain ⟨a0, ha0⟩ := Option.isSome_iff_exists.mp hin
  have ht : lookupKey (applyTasks m tasks) k = some a0 := by
    rw [applyTasks_lookup_notin m tasks k hne]; exact ha0
  obtain ⟨a2, ha2, _, _⟩ :=
    applyCommits_preserves (activeIds tasks) (applyTasks m tasks) commits k a0 ht
  have hact : (activeIds tasks).contains k = false := by
    rcases Bool.eq_false_or_eq_true ((activeIds tasks).contains k) with htr | hf
    · exfalso
      obtain ⟨t, hmem, hid⟩ := (contains_activeIds_iff k tasks).mp htr
      exact hne t hmem hid
    · exact hf
  rw [lookupKey_markIdle, ha2]
  exact ⟨_, rfl, by rw [idleAdjust, hact]; simp, by rw [idleAdjust, hact]; simp⟩

theorem updateAgentStatus_isSome (m : AgentMap) (tasks : List TaskRecord)
    (commits : List Commit) (k : String) (h : (lookupKey m k).isSome) :
    (lookupKey (updateAgentStatus m tasks commits) k).isSome := by
  unfold updateAgentStatus
  have h1 := applyTasks_isSome m tasks k h
  obtain ⟨a1, ha1⟩ := Option.isSome_iff_exists.mp h1
  obtain ⟨a2, ha2, _, _⟩ :=
    applyCommits_preserves (activeIds tasks) (applyTasks m tasks) commits k a1 ha1
  rw [lookupKey_markIdle, ha2]
  rfl

theorem updateCommits_agents (inp : TickInput) (w : Watcher) :
    ((updateCommits inp w).1).state.agents = w.state.agents := by
  unfold updateCommits
  cases inp.history.take COMMIT_WINDOW with
  | nil => rfl
  | cons c rest =>
    dsimp only
    by_cases h : c.hash ≠ "" ∧ w.lastCommitHash ≠ some c.hash
    · rw [if_pos h]
    · rw [if_neg h]

theorem poll_agents (inp : TickInput) (w : Watcher) :
    ((poll inp w).1).state.agents =
      updateAgentStatus w.state.agents (readCurrentTasks inp)
        ((updateCommits inp w).1).state.commits := by
  unfold poll
  dsimp only
  rw [updateCommits_agents]

theorem poll_event (inp : TickInput) (w : Watcher) :
    (poll inp w).2 = (updateCommits inp w).2 := rfl

theorem poll_lastCommitHash (inp : TickInput) (w : Watcher) :
    ((poll inp w).1).lastCommitHash = ((updateCommits inp w).1).lastCommitHash := rfl

theorem poll_commits (inp : TickInput) (w : Watcher) :
    ((poll inp w).1).state.commits = ((updateCommits inp w).1).state.commits := rfl

theorem poll_completed (inp : TickInput) (w : Watcher) :
    ((poll inp w).1).state.completedTaskCount = readCompletedCount inp := rfl

theorem updateCommits_commits_nil (inp : TickInput) (w : Watcher)
    (h : inp.history.take COMMIT_WINDOW = []) :
    ((updateCommits inp w).1).state.commits = w.state.commits := by
  unfold updateCommits
  rw [h]

theorem updateCommits_commits_cons (inp : TickInput) (w : Watcher) (c : Commit)
    (rest : List Commit) (h : inp.history.take COMMIT_WINDOW = c :: rest) :
    ((updateCommits inp w).1).state.commits = c :: rest := by
  unfold updateCommits
  rw [h]
  dsimp only
  by_cases hc : c.hash ≠ "" ∧ w.lastCommitHash ≠ some c.hash
  · rw [if_pos hc]
  · rw [if_neg hc]

theorem updateCommits_event (inp : TickInput) (w : Watcher) (c : Commit)
    (rest : List Commit) (h : inp.history.take COMMIT_WINDOW = c :: rest)
    (hhash : c.hash ≠ "") :
    ((updateCommits inp w).2 = some c ↔ w.lastCommitHash ≠ some c.hash) ∧
    ((updateCommits inp w).2 = none ↔ w.lastCommitHash = some c.hash) ∧
    ((updateCommits inp w).1).lastCommitHash = some c.hash := by
  unfold updateCommits
  rw [h]
  dsimp only
  by_cases he : w.lastCommitHash = some c.hash
  · rw [if_neg (by simp [he])]
    simp [he]
  · rw [if_pos ⟨hhash, he⟩]
    simp [he]

theorem addLog_le (logs : List LogEntry) (e : LogEntry) (h : logs.length ≤ 500) :
    (addLog logs e).length ≤ 500 := by
  unfold addLog
  by_cases hl : 500 < (logs ++ [e]).length
  · rw [if_pos hl]
    simp at hl ⊢
    omega
  · rw [if_neg hl]
    omega

theorem addLog_foldl_le (msgs : List LogEntry) (logs : List LogEntry)
    (h : logs.length ≤ 500) : (List.foldl addLog logs msgs).length ≤ 500 := by
  induction msgs generalizing logs with
  | nil => exact h
  | cons e msgs ih =>
    rw [List.foldl_cons]
    exact ih (addLog logs e) (addLog_le logs e h)

theorem addLog_evict (logs : List LogEntry) (e : LogEntry) (h : logs.length = 500) :
    addLog logs e = logs.drop 1 ++ [e] := by
  unfold addLog
  rw [if_pos (by simp [h])]
  exact List.drop_append_of_le_length (by omega)

theorem activeConflict_some_exists (m : SessionManager) (s : Session)
    (h : activeConflict m = some s) :
    ∃ i, m.activeSessionId = some i ∧ lookupKey m.sessions i = some s ∧
      s.status ≠ STATUS_STOPPED := by
  unfold activeConflict at h
  cases ha : m.activeSessionId with
  | none => rw [ha] at h; cases h
  | some i =>
    rw [ha] at h
    dsimp only at h
    cases hs : lookupKey m.sessions i with
    | none => rw [hs] at h; cases h
    | some s1 =>
      rw [hs] at h
      dsimp only at h
      by_cases e : s1.status = STATUS_STOPPED
      · rw [if_pos e] at h; cases h
      · rw [if_neg e] at h
        obtain rfl : s1 = s := Option.some.inj h
        exact ⟨i, rfl, hs, e⟩

theorem activeConflict_none_stopped (m : SessionManager)
    (h : activeConflict m = none) (i : String) (s : Session)
    (hi : m.activeSessionId = some i) (hs : lookupKey m.sessions i = some s) :
    s.status = STATUS_STOPPED := by
  unfold activeConflict at h
  rw [hi] at h
  dsimp only at h
  rw [hs] at h
  dsimp only at h
  by_cases e : s.status = STATUS_STOPPED
  · exact e
  · rw [if_neg e] at h; cases h

theorem clamp_one_five (p : Int) : 1 ≤ min (max p 1) 5 ∧ min (max p 1) 5 ≤ 5 := by
  omega

/-- C1: the claim asserts commit-derived counters are deduplicated by commit
hash across the observed history, so that repeating an identical tick leaves
`commitCount` / `taskCount` unchanged.  The code violates this: after one tick
over the unchanged single-commit history of `c1Input` worker 1 holds
`commitCount = 1`, `taskCount = 1`, and after a second identical tick it holds
`2` and `2` — `updateAgentStatus` re-increments from the same bounded window
on every poll with no dedup-by-hash. -/
theorem C1_recount_on_identical_ticks :
    lookupKey ((poll c1Input initialWatcher).1).state.agents "1" =
      some { id := "1", status := "idle", currentTask := none,
             commitCount := 1, taskCount := 1 } ∧
    lookupKey ((poll c1Input ((poll c1Input initialWatcher).1)).1).state.agents "1" =
      some { id := "1", status := "idle", currentTask := none,
             commitCount := 2, taskCount := 2 } :=
  ⟨rfl, rfl⟩

/-- C2: `SessionManager.create` fails with a conflict error iff the active
session exists and is not stopped; on failure the manager — and hence every
registered session — is returned unchanged; on success the fresh session has
status `initializing`, carries the requested name and worker count, and
becomes the active session. -/
theorem C2_create_single_active_gate (m : SessionManager) (g : String) (n : Int)
    (newId : String) (now : Nat) :
    ((∃ e, (SessionManager.create m g n newId now).1 = Except.error e) ↔
       ∃ i s, m.activeSessionId = some i ∧ lookupKey m.sessions i = some s ∧
         s.status ≠ STATUS_STOPPED) ∧
    ((∃ e, (SessionManager.create m g n newId now).1 = Except.error e) →
       (SessionManager.create m g n newId now).2 = m) ∧
    (∀ s, (SessionManager.create m g n newId now).1 = Except.ok s →
       s.status = STATUS_INITIALIZING ∧ s.id = newId ∧ s.gameName = g ∧
       s.agentCount = n ∧
       (SessionManager.create m g n newId now).2.activeSessionId = some newId ∧
       lookupKey (SessionManager.create m g n newId now).2.sessions newId = some s) := by
  unfold SessionManager.create
  cases hc : activeConflict m with
  | some s0 =>
    dsimp only
    refine ⟨?_, fun _ => rfl, ?_⟩
    · constructor
      · intro _
        obtain ⟨i, hi, hs, hstop⟩ := activeConflict_some_exists m s0 hc
        exact ⟨i, s0, hi, hs, hstop⟩
      · intro _; exact ⟨_, rfl⟩
    · intro s hok; cases hok
  | none =>
    dsimp only
    refine ⟨?_, ?_, ?_⟩
    · constructor
      · rintro ⟨e, he⟩; cases he
      · rintro ⟨i, s, hi, hs, hstop⟩
        exact absurd (activeConflict_none_stopped m hc i s hi hs) hstop
    · rintro ⟨e, he⟩; cases he
    · intro s hok
      cases hok
      exact ⟨rfl, rfl, rfl, rfl, rfl, lookupKey_setKey_self m.sessions newId _⟩

/-- Witness for C2 at concrete managers: creating against a running active
session fails and returns the manager untouched; creating against a stopped
active session succeeds with a fresh `initializing` active session. -/
theorem C2_create_single_active_gate_witness :
    (SessionManager.create c2Manager "snake" 2 "def0" 5).2 = c2Manager ∧
    (∃ e, (SessionManager.create c2Manager "snake" 2 "def0" 5).1 = Except.error e) ∧
    ((newSession "def0" "snake" 2 5).status = STATUS_INITIALIZING ∧
     (newSession "def0" "snake" 2 5).id = "def0" ∧
     (newSession "def0" "snake" 2 5).gameName = "snake" ∧
     (newSession "def0" "snake" 2 5).agentCount = 2 ∧
     (SessionManager.create c2StoppedManager "snake" 2 "def0" 5).2.activeSessionId =
       some "def0" ∧
     lookupKey (SessionManager.create c2StoppedManager "snake" 2 "def0" 5).2.sessions
       "def0" = some (newSession "def0" "snake" 2 5)) := by
  have h1 := C2_create_single_active_gate c2Manager "snake" 2 "def0" 5
  have h2 := C2_create_single_active_gate c2StoppedManager "snake" 2 "def0" 5
  have hfail : ∃ e, (SessionManager.create c2Manager "snake" 2 "def0" 5).1 =
      Except.error e :=
    h1.1.mpr ⟨"abc", c2Running, rfl, rfl, by decide⟩
  exact ⟨h1.2.1 hfail, hfail, h2.2.2 (newSession "def0" "snake" 2 5) rfl⟩

/-- C3: deriving a task record from a `current_tasks/` file name never fails:
a name the regex `agent-(\d+)-(\d+)` does not match degrades to agentId
`"unknown"` and timestamp `0`; a name of the form `agent-<id>-<millis>`
yields the id digits and the parsed millis; the description is always the
trimmed file content. -/
theorem C3_task_filename_parsing (name : List Char) (content : String) :
    (parseTaskFileL name content).description = content.trim ∧
    (agentTaskMatch name = none →
       (parseTaskFileL name content).agentId = "unknown" ∧
       (parseTaskFileL name content).timestamp = 0) ∧
    (∀ d1 d2 : List Char, d1 ≠ [] → d2 ≠ [] →
       (∀ c ∈ d1, c.isDigit) → (∀ c ∈ d2, c.isDigit) →
       name = "agent-".toList ++ (d1 ++ '-' :: d2) →
       (parseTaskFileL name content).agentId = String.mk d1 ∧
       (parseTaskFileL name content).timestamp = natOfDigits d2) := by
  refine ⟨?_, ?_, ?_⟩
  · unfold parseTaskFileL
    cases agentTaskMatch name with
    | none => rfl
    | some r => obtain ⟨ds1, ds2⟩ := r; rfl
  · intro h
    unfold parseTaskFileL
    rw [h]
    exact ⟨rfl, rfl⟩
  · intro d1 d2 h1 h2 hd1 hd2 hn
    subst hn
    unfold parseTaskFileL
    rw [agentTaskMatch_exact d1 d2 h1 h2 hd1 hd2]
    exact ⟨rfl, rfl⟩

/-- Witness for C3: the spec's ledger file name parses to id "2" and its epoch
millis, and a malformed name degrades to "unknown" / 0. -/
theorem C3_task_filename_parsing_witness :
    (parseTaskFileL "agent-2-1700000000000".toList "implement scoring").agentId =
      String.mk ['2'] ∧
    (parseTaskFileL "agent-2-1700000000000".toList "implement scoring").timestamp =
      natOfDigits "1700000000000".toList ∧
    (parseTaskFileL "notes.txt".toList "x").agentId = "unknown" ∧
    (parseTaskFileL "notes.txt".toList "x").timestamp = 0 := by
  have h1 := (C3_task_filename_parsing "agent-2-1700000000000".toList
      "implement scoring").2.2 ['2'] "1700000000000".toList
      (by decide) (by decide) (by decide) (by decide) (by decide)
  have h2 := (C3_task_filename_parsing "notes.txt".toList "x").2.1 (by decide)
  exact ⟨h1.1, h1.2, h2.1, h2.2⟩

/-- C4: when the integration attempt fails, the iteration aborts the rebase,
force-resets the local branch to exactly the remote tip (discarding the local
unpushed commit), sleeps the fixed 3-second backoff and skips the executor —
the `continue` returns to the sync step; and no iteration, failing or not,
exits the process on its own. -/
theorem C4_conflict_reset_policy (env : IterEnv) (g : AgentGit) :
    (agentIteration env g).processExited = false ∧
    (env.rebaseOk = false →
       (agentIteration env g).git.localHead = env.remoteTip ∧
       (agentIteration env g).git.rebaseInProgress = false ∧
       (agentIteration env g).sleptSeconds = 3 ∧
       (agentIteration env g).ranExecutor = false) := by
  unfold agentIteration
  cases hf : env.fetchOk <;> cases hr : env.rebaseOk <;> simp [hf, hr]

/-- Witness for C4 at a concrete conflicting environment. -/
theorem C4_conflict_reset_policy_witness :
    (agentIteration c4ConflictEnv c4Git).git.localHead = c4ConflictEnv.remoteTip ∧
    (agentIteration c4ConflictEnv c4Git).git.rebaseInProgress = false ∧
    (agentIteration c4ConflictEnv c4Git).sleptSeconds = 3 ∧
    (agentIteration c4ConflictEnv c4Git).processExited = false := by
  have h := C4_conflict_reset_policy c4ConflictEnv c4Git
  have h2 := h.2 rfl
  exact ⟨h2.1, h2.2.1, h2.2.2.1, h.1⟩

/-- C5: with a non-empty observed window whose head hash is non-empty, the
tick emits `newCommit` carrying exactly the newest commit iff the head hash
differs from the previously observed one, emits nothing iff it is unchanged,
and in either case the head hash becomes the last-observed hash. -/
theorem C5_newCommit_edge_triggered (w : Watcher) (inp : TickInput) (c : Commit)
    (rest : List Commit) (hwin : inp.history.take COMMIT_WINDOW = c :: rest)
    (hhash : c.hash ≠ "") :
    ((poll inp w).2 = some c ↔ w.lastCommitHash ≠ some c.hash) ∧
    ((poll inp w).2 = none ↔ w.lastCommitHash = some c.hash) ∧
    ((poll inp w).1).lastCommitHash = some c.hash := by
  rw [poll_event, poll_lastCommitHash]
  exact updateCommits_event inp w c rest hwin hhash

/-- Witness for C5: a fresh watcher emits the new head commit; an identical
second tick emits nothing. -/
theorem C5_newCommit_edge_triggered_witness :
    (poll c5Input initialWatcher).2 = some c5Commit ∧
    (poll c5Input (poll c5Input initialWatcher).1).2 = none := by
  have h1 := C5_newCommit_edge_triggered initialWatcher c5Input c5Commit [] rfl
    (by decide)
  have h2 := C5_newCommit_edge_triggered (poll c5Input initialWatcher).1 c5Input
    c5Commit [] rfl (by decide)
  exact ⟨h1.1.mpr (by decide), h2.2.1.mpr h1.2.2⟩

/-- C6: after a tick, a worker referenced by a current task record (the most
recent such record) is `working` with that record's description as
`currentTask`; a worker already present in the derived map but referenced by
no current task record is `idle` with `currentTask` cleared. -/
theorem C6_worker_status_from_ledger (w : Watcher) (inp : TickInput) (k : String) :
    (∀ r, lastTaskFor k (readCurrentTasks inp) = some r →
       ∃ a, lookupKey ((poll inp w).1).state.agents k = some a ∧
         a.status = "working" ∧ a.currentTask = some r.description) ∧
    (lastTaskFor k (readCurrentTasks inp) = none →
       (lookupKey w.state.agents k).isSome →
       ∃ a, lookupKey ((poll inp w).1).state.agents k = some a ∧
         a.status = "idle" ∧ a.currentTask = none) := by
  constructor
  · intro r hr
    rw [poll_agents]
    exact updateAgentStatus_working _ _ _ k r hr
  · intro hn hs
    rw [poll_agents]
    exact updateAgentStatus_idle _ _ _ k hn hs

/-- Witness for C6: the spec scenario — `current_tasks/agent-2-1700000000000`
containing "implement scoring" makes worker 2 `working` with that task; the
next tick without the record reports `idle` with `currentTask` cleared. -/
theorem C6_worker_status_from_ledger_witness :
    (∃ a, lookupKey ((poll c6Input initialWatcher).1).state.agents "2" = some a ∧
       a.status = "working" ∧ a.currentTask = some c6Record.description) ∧
    (∃ a, lookupKey ((poll emptyTickInput c6AfterFirstTick).1).state.agents "2" =
       some a ∧ a.status = "idle" ∧ a.currentTask = none) := by
  constructor
  · exact (C6_worker_status_from_ledger initialWatcher c6Input "2").1 c6Record rfl
  · exact (C6_worker_status_from_ledger c6AfterFirstTick emptyTickInput "2").2 rfl
      (by decide)

/-- C7: the published snapshot's commit list never exceeds the 30-commit
window and, whenever the log read is non-empty, equals the newest-first
window prefix of the observed history; `completedTaskCount` is the number of
`completed_tasks/` entries excluding `.gitkeep`; a fresh watcher starts with
an empty commit list (base case of the bound). -/
theorem C7_snapshot_window_and_counts (w : Watcher) (inp : TickInput) :
    (w.state.commits.length ≤ COMMIT_WINDOW →
       ((poll inp w).1).state.commits.length ≤ COMMIT_WINDOW) ∧
    (∀ c rest, inp.history.take COMMIT_WINDOW = c :: rest →
       ((poll inp w).1).state.commits = inp.history.take COMMIT_WINDOW) ∧
    (∀ fs, inp.completedFiles = some fs →
       ((poll inp w).1).state.completedTaskCount =
         (fs.filter fun f => f ≠ ".gitkeep").length) ∧
    initialWatcher.state.commits = [] := by
  refine ⟨?_, ?_, ?_, rfl⟩
  · intro h
    rw [poll_commits]
    cases hw : inp.history.take COMMIT_WINDOW with
    | nil => rw [updateCommits_commits_nil inp w hw]; exact h
    | cons c rest =>
      rw [updateCommits_commits_cons inp w c rest hw, ← hw]
      exact List.length_take_le COMMIT_WINDOW inp.history
  · intro c rest hw
    rw [poll_commits, updateCommits_commits_cons inp w c rest hw, hw]
  · intro fs hfs
    rw [poll_completed]
    unfold readCompletedCount
    rw [hfs]

/-- Witness for C7 at a concrete tick: one observed commit, two real
completed-task files plus a `.gitkeep`. -/
theorem C7_snapshot_window_and_counts_witness :
    ((poll c7Input initialWatcher).1).state.commits = [tickCommit] ∧
    ((poll c7Input initialWatcher).1).state.completedTaskCount = 2 ∧
    ((poll c7Input initialWatcher).1).state.commits.length ≤ COMMIT_WINDOW ∧
    initialWatcher.state.commits = [] := by
  have h := C7_snapshot_window_and_counts initialWatcher c7Input
  refine ⟨(h.2.1 tickCommit [] rfl).trans rfl, (h.2.2.1 _ rfl).trans (by decide),
    h.1 (by decide), h.2.2.2⟩

/-- C8: the log buffer is a bounded ring: `addLog` keeps at most 500 entries,
evicts exactly the oldest entry when full, a fresh session starts empty, and
any sequence of `addLog` calls from a fresh session stays within the bound. -/
theorem C8_log_ring_buffer (logs : List LogEntry) (e : LogEntry)
    (msgs : List LogEntry) (id g : String) (n : Int) (now : Nat) :
    (logs.length ≤ 500 → (addLog logs e).length ≤ 500) ∧
    (logs.length = 500 → addLog logs e = logs.drop 1 ++ [e]) ∧
    (newSession id g n now).logs = [] ∧
    (List.foldl addLog (newSession id g n now).logs msgs).length ≤ 500 := by
  refine ⟨addLog_le logs e, addLog_evict logs e, rfl, ?_⟩
  exact addLog_foldl_le msgs _ (by simp [newSession])

/-- Witness for C8 at a full buffer of 500 entries. -/
theorem C8_log_ring_buffer_witness :
    (addLog (List.replicate 500 { time := 0, message := "x" })
        { time := 1, message := "y" }).length ≤ 500 ∧
    addLog (List.replicate 500 { time := 0, message := "x" })
        { time := 1, message := "y" } =
      (List.replicate 500 { time := 0, message := "x" }).drop 1 ++
        [{ time := 1, message := "y" }] := by
  have h := C8_log_ring_buffer (List.replicate 500 { time := 0, message := "x" })
    { time := 1, message := "y" } [] "i" "g" 1 0
  exact ⟨h.1 (by rw [List.length_replicate]), h.2.1 (by rw [List.length_replicate])⟩

/-- C9, counterexample: the claim says any value below 1 is raised to 1, but
an `agentCount` of 0 — which is below 1 — is falsy in `parseInt(v) || 3` and
defaults to 3 instead. -/
theorem C9_counterexample_zero :
    (0 : Int) < 1 ∧ forgeAgentCount (JSValue.num 0) = 3 ∧
      forgeAgentCount (JSValue.num 0) ≠ 1 := by
  decide

/-- C9, amended: the used worker count is always in [1, 5]; a missing,
non-numeric, or zero-parsing `agentCount` defaults to 3; a negative value is
raised to 1; a value above 5 is lowered to 5. -/
theorem C9_count_clamped (v : JSValue) (n : Int) (s : String) :
    (1 ≤ forgeAgentCount v ∧ forgeAgentCount v ≤ 5) ∧
    forgeAgentCount JSValue.missing = 3 ∧
    (jsParseInt (JSValue.str s) = none → forgeAgentCount (JSValue.str s) = 3) ∧
    forgeAgentCount (JSValue.num 0) = 3 ∧
    (n < 0 → forgeAgentCount (JSValue.num n) = 1) ∧
    (5 < n → forgeAgentCount (JSValue.num n) = 5) := by
  refine ⟨?_, by decide, ?_, by decide, ?_, ?_⟩
  · unfold forgeAgentCount
    dsimp only
    exact clamp_one_five _
  · intro h
    unfold forgeAgentCount
    dsimp only
    rw [h]
    decide
  · intro h
    simp only [forgeAgentCount, jsParseInt]
    rw [if_neg (by omega : ¬n = 0)]
    omega
  · intro h
    simp only [forgeAgentCount, jsParseInt]
    rw [if_neg (by omega : ¬n = 0)]
    omega

/-- Witness for C9's amended theorem at concrete inputs. -/
theorem C9_count_clamped_witness :
    forgeAgentCount (JSValue.str "abc") = 3 ∧
    forgeAgentCount (JSValue.num (-2)) = 1 ∧
    forgeAgentCount (JSValue.num 7) = 5 ∧
    (1 ≤ forgeAgentCount (JSValue.num 0) ∧ forgeAgentCount (JSValue.num 0) ≤ 5) := by
  have h := C9_count_clamped (JSValue.num 0) (-2) "abc"
  have h7 := C9_count_clamped (JSValue.num 0) 7 "abc"
  exact ⟨h.2.2.1 rfl, h.2.2.2.2.1 (by decide), h7.2.2.2.2.2 (by decide), h.1⟩

/-- C10: an id present in the derived agents map stays present after any
tick; when its task records are gone it is reported `idle` with `currentTask`
cleared (whatever the commit window now holds); only `reset` empties the
map. -/
theorem C10_agents_map_monotone (w : Watcher) (inp : TickInput) (k : String) :
    ((lookupKey w.state.agents k).isSome →
       (lookupKey ((poll inp w).1).state.agents k).isSome) ∧
    ((lookupKey w.state.agents k).isSome →
       lastTaskFor k (readCurrentTasks inp) = none →
       ∃ a, lookupKey ((poll inp w).1).state.agents k = some a ∧
         a.status = "idle" ∧ a.currentTask = none) ∧
    (reset w).state.agents = [] := by
  refine ⟨?_, ?_, rfl⟩
  · intro h
    rw [poll_agents]
    exact updateAgentStatus_isSome _ _ _ k h
  · intro h hn
    rw [poll_agents]
    exact updateAgentStatus_idle _ _ _ k hn h

/-- Witness for C10: worker 1, known only from a commit that has left the
window, survives an empty tick as an idle entry; reset empties the map. -/
theorem C10_agents_map_monotone_witness :
    (lookupKey ((poll emptyTickInput c10AfterFirstTick).1).state.agents "1").isSome ∧
    (∃ a, lookupKey ((poll emptyTickInput c10AfterFirstTick).1).state.agents "1" =
       some a ∧ a.status = "idle" ∧ a.currentTask = none) ∧
    (reset c10AfterFirstTick).state.agents = [] := by
  have h := C10_agents_map_monotone c10AfterFirstTick emptyTickInput "1"
  exact ⟨h.1 (by decide), h.2.1 (by decide) rfl, h.2.2⟩

end Tokamak
